import Mathlib

/-
Verification of the stratum relay core of open-grin-pool.

The embedding models the connection handler of the stratum server
(handleConn), the response classifier (minerSession.handleMethod), and the
heartbeat task (callStatusPerInterval) as pure Lean functions over explicit
event sequences.  External collaborators (the credential/ledger store, the
upstream node connection, the JSON decoder) appear as oracle parameters or
as explicit input events, and the observable actions of the code (socket
writes, upstream sends, database calls, log calls, task spawns) are
collected as lists of effects.
-/

/-- Dynamic JSON values, modelling the untyped interface values that Go's
encoding/json produces for map entries, results and params. -/
inductive JVal where
  | null : JVal
  | str : String → JVal
  | num : Int → JVal
  | boolean : Bool → JVal
  | obj : List (String × JVal) → JVal
  | arr : List JVal → JVal

/-- Go type assertion v.(string): some s when the dynamic value is a string. -/
def JVal.asString : JVal → Option String
  | JVal.str s => some s
  | _ => none

/-- Go type assertion to a map: some fields when the value is an object. -/
def JVal.asObj : JVal → Option (List (String × JVal))
  | JVal.obj fields => some fields
  | _ => none

/-- Is sub a prefix of s (on character lists)? Used to model strings.Contains. -/
def startsWithList (sub s : List Char) : Bool :=
  match sub, s with
  | [], _ => true
  | _ :: _, [] => false
  | a :: as, b :: bs => a == b && startsWithList as bs

/-- Does s contain sub as a contiguous sublist? -/
def containsSubList (s sub : List Char) : Bool :=
  match s with
  | [] => startsWithList sub []
  | c :: rest => startsWithList sub (c :: rest) || containsSubList rest sub

/-- Go strings.Contains(s, substr). -/
def goContains (s substr : String) : Bool :=
  containsSubList s.toList substr.toList

/-- Membership of a character in a Go cutset string. -/
def inCutset (cutset : String) (c : Char) : Bool :=
  cutset.toList.contains c

/-- Drop the characters satisfying p from both ends of a list. -/
def trimListBoth (p : Char → Bool) (l : List Char) : List Char :=
  ((l.dropWhile p).reverse.dropWhile p).reverse

/-- Go strings.Trim(s, cutset): removes every leading and trailing character
contained in cutset (a character-set trim, not a literal-prefix trim). -/
def goTrim (s cutset : String) : String :=
  ⟨trimListBoth (inCutset cutset) s.toList⟩

/-- Go unicode.IsSpace restricted to the Latin-1 range (the only characters
relevant here): tab, newline, vertical tab, form feed, carriage return,
space, NEL, NBSP. -/
def goIsSpace (c : Char) : Bool :=
  c == '\t' || c == '\n' || c == '\x0b' || c == '\x0c' || c == '\r' ||
    c == ' ' || c == '\x85' || c == '\xa0'

/-- Go strings.TrimSpace(s). -/
def goTrimSpace (s : String) : String :=
  ⟨trimListBoth goIsSpace s.toList⟩

/-- The stratum_server section of the configuration (config.go); only the
field used by the relay core is modelled. -/
structure StratumServerConf where
  omitAgentStatus : List String

/-- The node section of the configuration (config.go); only the field used
by the relay core is modelled. -/
structure NodeConf where
  diff : Int

/-- The configuration record (config.go), restricted to the fields the
stratum relay core reads. -/
structure config where
  stratumServer : StratumServerConf
  node : NodeConf

/-- stratumRequest: the JSON-RPC request envelope.  Go's nil params map is
modelled as the empty association list. -/
structure stratumRequest where
  id : String
  jsonRpc : String
  method : String
  params : List (String × JVal)

/-- stratumResponse: the JSON-RPC response envelope.  Result is JVal.null
when absent; Error is none when the error map is nil. -/
structure stratumResponse where
  id : String
  jsonRpc : String
  method : String
  result : JVal
  error : Option (List (String × JVal))

/-- minerSession: per-connection mutable record (the ctx field of the Go
struct is represented by the explicit event sequences of the model). -/
structure minerSession where
  login : String
  agent : String
  difficulty : Int

/-- minerSession.hasNotLoggedIn: ms.login == "". -/
def minerSession.hasNotLoggedIn (ms : minerSession) : Bool :=
  ms.login == ""

/-- Calls into the database/ledger store (external collaborator). -/
inductive DbCall where
  | setMinerAgentStatus : String → String → Int → List (String × JVal) → DbCall
  | putShare : String → String → Int → DbCall
  | putBlockHash : String → DbCall
  | registerMiner : String → String → String → DbCall

def DbCall.isPutShare : DbCall → Bool
  | DbCall.putShare _ _ _ => true
  | _ => false

def DbCall.isPutBlockHash : DbCall → Bool
  | DbCall.putBlockHash _ => true
  | _ => false

/-- minerSession.handleMethod: classification of a response pushed from
upstream (source lines 47-75).  The returned list is the sequence of
database calls made; log calls are not part of this list.
- "status": before login only a warning is logged; after login
  setMinerAgentStatus is called with the result of the map type assertion
  (the nil map, i.e. [], when the assertion fails).
- "submit": a non-nil error only logs; otherwise the string type assertion
  on the result decides whether putShare is called, and when the detail
  contains "block", putBlockHash is called with
  strings.Trim(detail, "block - "). -/
def minerSession.handleMethod (ms : minerSession) (res : stratumResponse) :
    List DbCall :=
  if res.method = "status" then
    if ms.login = "" then []
    else
      [DbCall.setMinerAgentStatus ms.login ms.agent ms.difficulty
        ((JVal.asObj res.result).getD [])]
  else if res.method = "submit" then
    match res.error with
    | some _ => []
    | none =>
      match JVal.asString res.result with
      | some detail =>
          DbCall.putShare ms.login ms.agent ms.difficulty ::
            (if goContains detail "block" then
              [DbCall.putBlockHash (goTrim detail "block - ")]
            else [])
      | none => []
  else []

/-- The status request sent by the heartbeat task (source lines 78-83):
ID "0", jsonrpc "2.0", method "status", nil params. -/
def statusReq : stratumRequest :=
  ⟨"0", "2.0", "status", []⟩

/-- The tick interval of the heartbeat task, in seconds:
time.Tick(10 * time.Second) (source line 85). -/
def heartbeatIntervalSeconds : Nat := 10

/-- The two events the heartbeat select loop can observe: a timer tick or
cancellation of the connection context. -/
inductive HeartbeatEvent where
  | tick : HeartbeatEvent
  | ctxDone : HeartbeatEvent

def HeartbeatEvent.isTick : HeartbeatEvent → Bool
  | HeartbeatEvent.tick => true
  | HeartbeatEvent.ctxDone => false

/-- callStatusPerInterval (source lines 77-99), as a function of the
sequence of select outcomes: each tick sends statusReq upstream (an encode
error is only logged, the send attempt still happens); ctx.Done returns,
after which nothing more is sent. -/
def callStatusPerIntervalRun : List HeartbeatEvent → List stratumRequest
  | [] => []
  | HeartbeatEvent.tick :: rest => statusReq :: callStatusPerIntervalRun rest
  | HeartbeatEvent.ctxDone :: _ => []

/-- Observable effects of one iteration of the connection read loop. -/
inductive Effect where
  | logInfo : Effect
  | logWarning : Effect
  | logError : Effect
  | writeMiner : String → Effect
  | relayUpstream : String → Effect
  | dbCall : DbCall → Effect
  | spawnHeartbeat : Effect

def Effect.isSpawnHeartbeat : Effect → Bool
  | Effect.spawnHeartbeat => true
  | _ => false

/-- Number of heartbeat tasks spawned among a list of effects. -/
def countSpawns (effs : List Effect) : Nat :=
  effs.countP Effect.isSpawnHeartbeat

/-- State of the connection handler between read-loop iterations: the
session record and the handler-local login variable (source line 105). -/
structure ConnState where
  session : minerSession
  loginVar : String

/-- Session and local state at connection accept (source lines 103-105):
empty login and agent, difficulty from conf.Node.Diff. -/
def initialConnState (conf : config) : ConnState :=
  ⟨⟨"", "", conf.node.diff⟩, ""⟩

/-- Whether the Go read loop keeps looping or returns. -/
inductive StepOutcome where
  | cont : StepOutcome
  | term : StepOutcome

/-- Result of one read-loop iteration. -/
structure StepResult where
  state : ConnState
  effects : List Effect
  outcome : StepOutcome

/-- One input to a read-loop iteration: either dec.Decode returned an error
(an OpError that is or is not ECONNRESET, or a non-OpError; json.Decoder
leaves the RawMessage empty in every error case), or it produced a raw
frame together with the result of json.Unmarshal on it (none when
unmarshalling into stratumRequest fails) and the value rand.Int63 would
return in this iteration. -/
inductive ConnEvent where
  | readErr : Bool → Bool → ConnEvent
  | frame : String → Option stratumRequest → Nat → ConnEvent

/-- Is the event a well-formed (non-empty, parsed) login frame? -/
def ConnEvent.isLoginFrame : ConnEvent → Bool
  | ConnEvent.frame raw (some req) _ => raw != "" && req.method == "login"
  | _ => false

/-- lookup of clientReq.Params[key] (nil for a missing key). -/
def lookupParam (params : List (String × JVal)) (key : String) : Option JVal :=
  (params.find? (fun kv => kv.1 == key)).map (fun kv => kv.2)

/-- Extraction of a string param with the Go default: a missing key or a
non-string value yields "" (the two-valued type assertion with _). -/
def reqParamStr (req : stratumRequest) (key : String) : String :=
  ((lookupParam req.params key).bind JVal.asString).getD ""

/-- The trimmed login parameter of a login request (source lines 157, 163). -/
def reqLogin (req : stratumRequest) : String :=
  goTrimSpace (reqParamStr req "login")

/-- The trimmed pass parameter of a login request (source lines 159, 164). -/
def reqPass (req : stratumRequest) : String :=
  goTrimSpace (reqParamStr req "pass")

/-- The agent committed to the session (source lines 161, 165-169): the
trimmed agent parameter, or "NoNameMiner" suffixed with rand.Int63 when
blank. -/
def committedAgent (req : stratumRequest) (randVal : Nat) : String :=
  let a := goTrimSpace (reqParamStr req "agent")
  if a = "" then "NoNameMiner" ++ toString randVal else a

/-- Result of db.verifyMiner (external credential store). -/
inductive VerifyResult where
  | wrongPassword : VerifyResult
  | noPassword : VerifyResult
  | correctPassword : VerifyResult
deriving DecidableEq

/-- The exact bytes the code writes to the miner socket on a wrong
password (the raw string literal at source lines 175-183). -/
def loginErrorLiteral : String :=
  "\x7b  \n   \"id\":\"5\",\n   \"jsonrpc\":\"2.0\",\n   \"method\":\"login\",\n   \"error\":\x7b  \n      \"code\":-32500,\n      \"message\":\"login incorrect\"\n   \x7d\n\x7d"

/-- The compact rendering of the login error object given in the spec. -/
def specLoginErrorJson : String :=
  "\x7b\"id\":\"5\",\"jsonrpc\":\"2.0\",\"method\":\"login\",\"error\":\x7b\"code\":-32500,\"message\":\"login incorrect\"\x7d\x7d"

/-- Remove whitespace lying outside of double-quoted string literals (the
literals here contain no escape sequences, which are therefore ignored). -/
def stripJsonWsAux : Bool → List Char → List Char
  | _, [] => []
  | inStr, c :: rest =>
    if c == '"' then c :: stripJsonWsAux (!inStr) rest
    else if !inStr && (c == ' ' || c == '\n' || c == '\t' || c == '\r') then
      stripJsonWsAux inStr rest
    else c :: stripJsonWsAux inStr rest

def stripJsonWs (s : String) : String :=
  ⟨stripJsonWsAux false s.toList⟩

/-- The requireCallStatus flag (source lines 196-202): false exactly when
the agent contains one of the configured omit substrings. -/
def requireCallStatus (conf : config) (agent : String) : Bool :=
  !(conf.stratumServer.omitAgentStatus.any fun omitSubstr =>
      goContains agent omitSubstr)

/-- Effects of the verifyMiner switch (source lines 171-191):
wrongPassword logs a warning and writes the error literal to the miner;
noPassword registers the miner (with the trimmed login and pass and empty
contact) and logs; correctPassword does nothing. -/
def loginAuthEffects (vres : VerifyResult) (login1 pass1 : String) :
    List Effect :=
  match vres with
  | VerifyResult.wrongPassword =>
      [Effect.logWarning, Effect.writeMiner loginErrorLiteral]
  | VerifyResult.noPassword =>
      [Effect.dbCall (DbCall.registerMiner login1 pass1 ""), Effect.logInfo]
  | VerifyResult.correctPassword => []

/-- The value of the local login variable after the switch (source line
174 clears it on wrongPassword, the other cases leave it as the trimmed
parameter); it is then assigned into the session (source line 193). -/
def loginCommitted (vres : VerifyResult) (login1 : String) : String :=
  match vres with
  | VerifyResult.wrongPassword => ""
  | _ => login1

/-- The conditional heartbeat spawn (source lines 196-205). -/
def heartbeatEffects (conf : config) (agent : String) : List Effect :=
  if requireCallStatus conf agent then [Effect.spawnHeartbeat] else []

/-- The login branch of the read loop (source lines 156-208).  Note that
every verify outcome, including wrongPassword, falls through to the
session assignment, the heartbeat spawn decision and the upstream relay of
the raw frame. -/
def loginStep (conf : config) (v : String → String → VerifyResult)
    (st : ConnState) (raw : String) (req : stratumRequest) (randVal : Nat) :
    StepResult :=
  ⟨⟨⟨loginCommitted (v (reqLogin req) (reqPass req)) (reqLogin req),
      committedAgent req randVal, st.session.difficulty⟩,
    loginCommitted (v (reqLogin req) (reqPass req)) (reqLogin req)⟩,
   Effect.logInfo ::
      loginAuthEffects (v (reqLogin req) (reqPass req)) (reqLogin req)
          (reqPass req)
        ++ heartbeatEffects conf (committedAgent req randVal)
        ++ [Effect.logInfo, Effect.relayUpstream raw],
   StepOutcome.cont⟩

/-- One iteration of the read loop of handleConn (source lines 127-217).
On a decode error, an ECONNRESET OpError returns immediately; any other
OpError is not logged and a non-OpError is logged, and in both cases the
RawMessage is still empty so the len==0 check returns as well.  An empty
frame returns.  A frame that fails to unmarshal is skipped silently.  A
login frame runs loginStep; any other method logs a warning when the
session has not logged in and relays the raw frame upstream unmodified. -/
def handleConnStep (conf : config) (v : String → String → VerifyResult)
    (st : ConnState) (ev : ConnEvent) : StepResult :=
  match ev with
  | ConnEvent.readErr isOpError isReset =>
    if isOpError then
      if isReset then ⟨st, [], StepOutcome.term⟩
      else ⟨st, [], StepOutcome.term⟩
    else ⟨st, [Effect.logError], StepOutcome.term⟩
  | ConnEvent.frame raw parsed randVal =>
    if raw = "" then ⟨st, [], StepOutcome.term⟩
    else
      match parsed with
      | none => ⟨st, [], StepOutcome.cont⟩
      | some req =>
        if req.method = "login" then loginStep conf v st raw req randVal
        else
          ⟨st,
           Effect.logInfo ::
              (if st.session.hasNotLoggedIn then [Effect.logWarning] else [])
                ++ [Effect.relayUpstream raw],
           StepOutcome.cont⟩

/-- The read loop over a sequence of decode results: it folds
handleConnStep, stops at the first terminating iteration, and accumulates
the effects of all executed iterations. -/
def handleConnRun (conf : config) (v : String → String → VerifyResult) :
    ConnState → List ConnEvent → ConnState × List Effect
  | st, [] => (st, [])
  | st, ev :: rest =>
    match handleConnStep conf v st ev with
    | ⟨st2, effs, StepOutcome.term⟩ => (st2, effs)
    | ⟨st2, effs, StepOutcome.cont⟩ =>
        ((handleConnRun conf v st2 rest).1,
         effs ++ (handleConnRun conf v st2 rest).2)

/-- Number of well-formed login frames in an event sequence. -/
def countLoginFrames (evs : List ConnEvent) : Nat :=
  evs.countP ConnEvent.isLoginFrame

/-- True when the event, if it is a well-formed login frame, commits an
agent that contains a configured omit substring (so no heartbeat task is
spawned for it). -/
def loginOmitted (conf : config) : ConnEvent → Bool
  | ConnEvent.frame raw (some req) randVal =>
      (raw == "") || (req.method != "login") ||
        !(requireCallStatus conf (committedAgent req randVal))
  | _ => true

/-- The character set of the Go cutset string "block - ", as the spec
describes it. -/
def blockCutsetChars : List Char := ['b', 'l', 'o', 'c', 'k', '-', ' ']

/-- Trim per the claim wording: remove every leading and trailing character
belonging to the set b, l, o, c, k, hyphen, space. -/
def specCharSetTrim (s : String) : String :=
  ⟨trimListBoth (fun c => blockCutsetChars.contains c) s.toList⟩

theorem dropWhileExt (p q : Char → Bool) (h : ∀ c, p c = q c) :
    ∀ l : List Char, l.dropWhile p = l.dropWhile q := by
  intro l
  induction l with
  | nil => rfl
  | cons a t ih => rw [List.dropWhile_cons, List.dropWhile_cons, h a, ih]

theorem inCutset_block (c : Char) :
    inCutset "block - " c = blockCutsetChars.contains c := by
  have h : "block - ".toList = ['b', 'l', 'o', 'c', 'k', ' ', '-', ' '] := rfl
  rw [inCutset, h, Bool.eq_iff_iff]
  simp [blockCutsetChars, List.contains_cons]
  tauto

theorem goTrim_block_eq_spec (s : String) :
    goTrim s "block - " = specCharSetTrim s := by
  unfold goTrim specCharSetTrim trimListBoth
  simp only [dropWhileExt _ _ inCutset_block]

/-- C5: a pushed submit response with error absent and a string result
containing "block" produces exactly one putShare call and exactly one
putBlockHash call whose hash is derived from the result text; a submit
response with error present produces zero recording calls. -/
theorem C5_submit_recording (ms : minerSession) (res : stratumResponse)
    (hm : res.method = "submit") :
    (∀ detail : String, res.error = none → res.result = JVal.str detail →
        goContains detail "block" = true →
        ms.handleMethod res =
          [DbCall.putShare ms.login ms.agent ms.difficulty,
           DbCall.putBlockHash (goTrim detail "block - ")]) ∧
    (res.error ≠ none → ms.handleMethod res = []) := by
  constructor
  · intro detail he hr hb
    simp [minerSession.handleMethod, hm, he, hr, JVal.asString, hb]
  · intro he
    rcases hcase : res.error with _ | errMap
    · exact absurd hcase he
    · simp [minerSession.handleMethod, hm, hcase]

def wMs : minerSession := ⟨"alice", "cpuminer", 1⟩

def wSubmitRes : stratumResponse :=
  ⟨"1", "2.0", "submit", JVal.str "block - cafe123", none⟩

theorem C5_witness :
    wMs.handleMethod wSubmitRes =
      [DbCall.putShare "alice" "cpuminer" 1, DbCall.putBlockHash "afe123"] :=
  (C5_submit_recording wMs wSubmitRes rfl).1 "block - cafe123" rfl rfl rfl

/-- C6: for a submit detail string containing "block", the recorded block
hash equals the detail with every leading and trailing character from the
set b, l, o, c, k, hyphen, space removed (a character-set trim, not a
literal-prefix removal). -/
theorem C6_blockhash_charset_trim (ms : minerSession) (res : stratumResponse)
    (detail : String) (hm : res.method = "submit") (he : res.error = none)
    (hr : res.result = JVal.str detail)
    (hb : goContains detail "block" = true) :
    (ms.handleMethod res).filter DbCall.isPutBlockHash =
      [DbCall.putBlockHash (specCharSetTrim detail)] := by
  simp [minerSession.handleMethod, hm, he, hr, JVal.asString, hb,
    List.filter, DbCall.isPutBlockHash, goTrim_block_eq_spec]

def wSubmitRes2 : stratumResponse :=
  ⟨"2", "2.0", "submit", JVal.str "block - cab1e", none⟩

theorem C6_witness :
    (wMs.handleMethod wSubmitRes2).filter DbCall.isPutBlockHash =
      [DbCall.putBlockHash "ab1e"] :=
  C6_blockhash_charset_trim wMs wSubmitRes2 "block - cab1e" rfl rfl rfl rfl

/-- C9: a pushed submit response with error absent but a non-string result
records nothing: neither putShare nor putBlockHash is called. -/
theorem C9_submit_nonstring_no_record (ms : minerSession)
    (res : stratumResponse) (hm : res.method = "submit")
    (he : res.error = none) (hr : ∀ s : String, res.result ≠ JVal.str s) :
    ms.handleMethod res = [] := by
  have hstr : JVal.asString res.result = none := by
    rcases h : res.result with _ | s | n | b | fields | elems
    · rfl
    · exact absurd h (hr s)
    · rfl
    · rfl
    · rfl
    · rfl
  simp [minerSession.handleMethod, hm, he, hstr]

def wSubmitResNum : stratumResponse :=
  ⟨"3", "2.0", "submit", JVal.num 5, none⟩

theorem C9_witness : wMs.handleMethod wSubmitResNum = [] :=
  C9_submit_nonstring_no_record wMs wSubmitResNum rfl rfl
    (fun _ h => JVal.noConfusion h)

/-- C10: a pushed status response received after login calls
setMinerAgentStatus exactly once even when the result is not a mapping, and
then with the session's login, agent, difficulty and the nil (empty)
status mapping. -/
theorem C10_status_nonmapping (ms : minerSession) (res : stratumResponse)
    (hm : res.method = "status") (hl : ms.login ≠ "")
    (hr : ∀ fields : List (String × JVal), res.result ≠ JVal.obj fields) :
    ms.handleMethod res =
      [DbCall.setMinerAgentStatus ms.login ms.agent ms.difficulty []] := by
  have hobj : JVal.asObj res.result = none := by
    rcases h : res.result with _ | s | n | b | fields | elems
    · rfl
    · rfl
    · rfl
    · rfl
    · exact absurd h (hr fields)
    · rfl
  simp [minerSession.handleMethod, hm, hl, hobj]

def wStatusRes : stratumResponse :=
  ⟨"4", "2.0", "status", JVal.str "ok", none⟩

theorem C10_witness :
    wMs.handleMethod wStatusRes =
      [DbCall.setMinerAgentStatus "alice" "cpuminer" 1 []] :=
  C10_status_nonmapping wMs wStatusRes rfl (by decide)
    (fun _ h => JVal.noConfusion h)

def exConf : config := ⟨⟨[]⟩, ⟨1⟩⟩

def exVerifyWrong : String → String → VerifyResult :=
  fun _ _ => VerifyResult.wrongPassword

def exVerifyOk : String → String → VerifyResult :=
  fun _ _ => VerifyResult.correctPassword

def loginReq (name : String) : stratumRequest :=
  ⟨"1", "2.0", "login",
   [("login", JVal.str name), ("pass", JVal.str "pw"),
    ("agent", JVal.str "cpuminer")]⟩

def loginRaw (name : String) : String :=
  "\x7b\"id\":\"1\",\"jsonrpc\":\"2.0\",\"method\":\"login\",\"params\":\x7b\"login\":\""
    ++ name ++ "\",\"pass\":\"pw\",\"agent\":\"cpuminer\"\x7d\x7d"

def loginEvt (name : String) : ConnEvent :=
  ConnEvent.frame (loginRaw name) (some (loginReq name)) 0

set_option maxRecDepth 16000 in
theorem stripJsonWs_loginErrorLiteral :
    stripJsonWs loginErrorLiteral = specLoginErrorJson := rfl

set_option maxRecDepth 16000 in
/-- C1 (counterexample): a login frame rejected with wrongPassword IS
relayed upstream: after the verify switch the code falls through to the
common relay of the raw frame, so the claim that the frame is not relayed
fails on this concrete input. -/
theorem C1_counterexample :
    Effect.relayUpstream (loginRaw "alice") ∈
      (handleConnStep exConf exVerifyWrong (initialConnState exConf)
        (loginEvt "alice")).effects := by
  have h : (handleConnStep exConf exVerifyWrong (initialConnState exConf)
      (loginEvt "alice")).effects =
      [Effect.logInfo, Effect.logWarning,
       Effect.writeMiner loginErrorLiteral, Effect.spawnHeartbeat,
       Effect.logInfo, Effect.relayUpstream (loginRaw "alice")] := rfl
  rw [h]
  simp

/-- C1 (amended): on a login request for which verify returns
wrongPassword, the session login is empty after the request is handled and
the literal error JSON of the code (equal to the compact form of the spec
up to whitespace outside string literals) is written to the miner socket,
but the login frame IS still relayed upstream. -/
theorem C1_wrong_password_flow (conf : config)
    (v : String → String → VerifyResult) (st : ConnState) (raw : String)
    (req : stratumRequest) (randVal : Nat) (hraw : raw ≠ "")
    (hm : req.method = "login")
    (hv : v (reqLogin req) (reqPass req) = VerifyResult.wrongPassword) :
    (handleConnStep conf v st
        (ConnEvent.frame raw (some req) randVal)).state.session.login = "" ∧
    Effect.writeMiner loginErrorLiteral ∈
      (handleConnStep conf v st
        (ConnEvent.frame raw (some req) randVal)).effects ∧
    Effect.relayUpstream raw ∈
      (handleConnStep conf v st
        (ConnEvent.frame raw (some req) randVal)).effects ∧
    stripJsonWs loginErrorLiteral = specLoginErrorJson := by
  have hstep : handleConnStep conf v st
      (ConnEvent.frame raw (some req) randVal) =
      loginStep conf v st raw req randVal := by
    simp [handleConnStep, hraw, hm]
  rw [hstep]
  refine ⟨?_, ?_, ?_, ?_⟩
  · simp [loginStep, hv, loginCommitted]
  · simp [loginStep, hv, loginAuthEffects]
  · simp [loginStep]
  · exact stripJsonWs_loginErrorLiteral

theorem C1_witness :
    (handleConnStep exConf exVerifyWrong (initialConnState exConf)
      (loginEvt "bob")).state.session.login = "" ∧
    Effect.writeMiner loginErrorLiteral ∈
      (handleConnStep exConf exVerifyWrong (initialConnState exConf)
        (loginEvt "bob")).effects ∧
    Effect.relayUpstream (loginRaw "bob") ∈
      (handleConnStep exConf exVerifyWrong (initialConnState exConf)
        (loginEvt "bob")).effects ∧
    stripJsonWs loginErrorLiteral = specLoginErrorJson :=
  C1_wrong_password_flow exConf exVerifyWrong (initialConnState exConf)
    (loginRaw "bob") (loginReq "bob") 0 (by decide) rfl rfl

/-- C2 (counterexample): on a read error that is neither an OpError nor a
reset, the loop logs the error but then terminates the connection (the
decoder left the frame empty and the empty-frame check returns), contrary
to the claim that it continues reading. -/
theorem C2_counterexample :
    (handleConnStep exConf exVerifyOk (initialConnState exConf)
      (ConnEvent.readErr false false)).outcome = StepOutcome.term ∧
    (handleConnStep exConf exVerifyOk (initialConnState exConf)
      (ConnEvent.readErr false false)).effects = [Effect.logError] :=
  ⟨rfl, rfl⟩

/-- C2 (amended): every read error terminates the connection: an
ECONNRESET OpError returns immediately, any other error falls through to
the empty-frame check with an empty frame and returns as well; the error
is logged exactly when it is not an OpError.  The session state is not
changed by the error path. -/
theorem C2_read_error_terminates (conf : config)
    (v : String → String → VerifyResult) (st : ConnState)
    (isOpError isReset : Bool) :
    (handleConnStep conf v st
        (ConnEvent.readErr isOpError isReset)).outcome = StepOutcome.term ∧
    (handleConnStep conf v st
        (ConnEvent.readErr isOpError isReset)).effects =
      (if isOpError then [] else [Effect.logError]) ∧
    (handleConnStep conf v st
        (ConnEvent.readErr isOpError isReset)).state = st := by
  cases isOpError <;> cases isReset <;> simp [handleConnStep]

/-- C3 (counterexample): two successful login frames on one connection
move the session login from empty to "alice" and then change it again to
"bob", so the login field does not transition at most once and is not
immutable once non-empty. -/
theorem C3_counterexample :
    (handleConnStep exConf exVerifyOk (initialConnState exConf)
      (loginEvt "alice")).state.session.login = "alice" ∧
    (handleConnStep exConf exVerifyOk
      (handleConnStep exConf exVerifyOk (initialConnState exConf)
        (loginEvt "alice")).state
      (loginEvt "bob")).state.session.login = "bob" :=
  ⟨rfl, rfl⟩

/-- C3 (amended): the session login field is unchanged by every event that
is not a well-formed login frame, and every handled login frame overwrites
it: with the empty string when verify answers wrongPassword and with the
trimmed login parameter otherwise; it can therefore change many times,
including from non-empty back to empty. -/
theorem C3_login_field_updates (conf : config)
    (v : String → String → VerifyResult) (st : ConnState) :
    (∀ ev : ConnEvent, ConnEvent.isLoginFrame ev = false →
        (handleConnStep conf v st ev).state.session.login =
          st.session.login) ∧
    (∀ (raw : String) (req : stratumRequest) (randVal : Nat), raw ≠ "" →
        req.method = "login" →
        (handleConnStep conf v st
            (ConnEvent.frame raw (some req) randVal)).state.session.login =
          (if v (reqLogin req) (reqPass req) = VerifyResult.wrongPassword
            then "" else reqLogin req)) := by
  constructor
  · intro ev h
    cases ev with
    | readErr isOp isReset =>
      cases isOp <;> cases isReset <;> simp [handleConnStep]
    | frame raw parsed randVal =>
      cases parsed with
      | none =>
        by_cases hraw : raw = "" <;> simp [handleConnStep, hraw]
      | some req =>
        by_cases hraw : raw = ""
        · simp [handleConnStep, hraw]
        · have hm : ¬(req.method = "login") := by
            simp [ConnEvent.isLoginFrame, hraw] at h
            exact h
          simp [handleConnStep, hraw, hm]
  · intro raw req randVal hraw hm
    have hstep : handleConnStep conf v st
        (ConnEvent.frame raw (some req) randVal) =
        loginStep conf v st raw req randVal := by
      simp [handleConnStep, hraw, hm]
    rw [hstep]
    cases hv : v (reqLogin req) (reqPass req) <;>
      simp [loginStep, hv, loginCommitted]

theorem C3_witness :
    (handleConnStep exConf exVerifyOk (initialConnState exConf)
      (loginEvt "carol")).state.session.login =
      (if exVerifyOk (reqLogin (loginReq "carol"))
          (reqPass (loginReq "carol")) = VerifyResult.wrongPassword
        then "" else reqLogin (loginReq "carol")) :=
  (C3_login_field_updates exConf exVerifyOk (initialConnState exConf)).2
    (loginRaw "carol") (loginReq "carol") 0 (by decide) rfl

/-- C8 (confirmed): every well-formed non-login request frame is relayed
upstream with exactly the raw bytes that were read (every upstream relay
of this iteration carries those bytes), the session being unauthenticated
only adds a logged warning and does not prevent the relay, the state is
unchanged and the loop continues. -/
theorem C8_passthrough (conf : config) (v : String → String → VerifyResult)
    (st : ConnState) (raw : String) (req : stratumRequest) (randVal : Nat)
    (hraw : raw ≠ "") (hm : req.method ≠ "login") :
    Effect.relayUpstream raw ∈
      (handleConnStep conf v st
        (ConnEvent.frame raw (some req) randVal)).effects ∧
    (∀ s : String, Effect.relayUpstream s ∈
        (handleConnStep conf v st
          (ConnEvent.frame raw (some req) randVal)).effects → s = raw) ∧
    (st.session.hasNotLoggedIn = true → Effect.logWarning ∈
      (handleConnStep conf v st
        (ConnEvent.frame raw (some req) randVal)).effects) ∧
    (handleConnStep conf v st
        (ConnEvent.frame raw (some req) randVal)).state = st ∧
    (handleConnStep conf v st
        (ConnEvent.frame raw (some req) randVal)).outcome =
      StepOutcome.cont := by
  have hstep : handleConnStep conf v st
      (ConnEvent.frame raw (some req) randVal) =
      ⟨st, Effect.logInfo ::
        (if st.session.hasNotLoggedIn then [Effect.logWarning] else [])
          ++ [Effect.relayUpstream raw], StepOutcome.cont⟩ := by
    simp [handleConnStep, hraw, hm]
  rw [hstep]
  refine ⟨?_, ?_, ?_, rfl, rfl⟩
  · by_cases hnl : st.session.hasNotLoggedIn <;> simp [hnl]
  · intro s hs
    by_cases hnl : st.session.hasNotLoggedIn
    · simp [hnl] at hs
      exact hs
    · simp [hnl] at hs
      exact hs
  · intro hnl
    simp [hnl]

def wReq : stratumRequest := ⟨"2", "2.0", "getjobtemplate", []⟩

def wRaw : String :=
  "\x7b\"id\":\"2\",\"jsonrpc\":\"2.0\",\"method\":\"getjobtemplate\"\x7d"

theorem C8_witness :
    Effect.relayUpstream wRaw ∈
      (handleConnStep exConf exVerifyOk (initialConnState exConf)
        (ConnEvent.frame wRaw (some wReq) 0)).effects :=
  (C8_passthrough exConf exVerifyOk (initialConnState exConf) wRaw wReq 0
    (by decide) (by decide)).1

theorem countSpawns_append (l1 l2 : List Effect) :
    countSpawns (l1 ++ l2) = countSpawns l1 + countSpawns l2 := by
  simp [countSpawns, List.countP_append]

theorem countSpawns_loginStep (conf : config)
    (v : String → String → VerifyResult) (st : ConnState) (raw : String)
    (req : stratumRequest) (randVal : Nat) :
    countSpawns (loginStep conf v st raw req randVal).effects =
      (if requireCallStatus conf (committedAgent req randVal) then 1
        else 0) := by
  cases hv : v (reqLogin req) (reqPass req) <;>
    by_cases hrc : requireCallStatus conf (committedAgent req randVal) <;>
      simp [loginStep, hv, hrc, loginAuthEffects, heartbeatEffects,
        countSpawns, List.countP_cons, List.countP_append,
        Effect.isSpawnHeartbeat]

theorem countSpawns_step_le (conf : config)
    (v : String → String → VerifyResult) (st : ConnState) (ev : ConnEvent) :
    countSpawns (handleConnStep conf v st ev).effects ≤
      countLoginFrames [ev] := by
  cases ev with
  | readErr isOp isReset =>
    cases isOp <;> cases isReset <;>
      simp [handleConnStep, countSpawns, countLoginFrames,
        List.countP_cons, Effect.isSpawnHeartbeat]
  | frame raw parsed randVal =>
    by_cases hraw : raw = ""
    · simp [handleConnStep, hraw, countSpawns, countLoginFrames,
        List.countP_cons, ConnEvent.isLoginFrame]
    · cases parsed with
      | none =>
        simp [handleConnStep, hraw, countSpawns, countLoginFrames,
          List.countP_cons, ConnEvent.isLoginFrame]
      | some req =>
        by_cases hm : req.method = "login"
        · have hstep : handleConnStep conf v st
              (ConnEvent.frame raw (some req) randVal) =
              loginStep conf v st raw req randVal := by
            simp [handleConnStep, hraw, hm]
          have hone : countLoginFrames
              [ConnEvent.frame raw (some req) randVal] = 1 := by
            simp [countLoginFrames, List.countP_cons,
              ConnEvent.isLoginFrame, hraw, hm]
          rw [hstep, countSpawns_loginStep, hone]
          split <;> simp
        · by_cases hnl : st.session.hasNotLoggedIn <;>
            simp [handleConnStep, hraw, hm, hnl, countSpawns,
              countLoginFrames, List.countP_cons, List.countP_append,
              Effect.isSpawnHeartbeat, ConnEvent.isLoginFrame]

theorem countLoginFrames_cons (ev : ConnEvent) (rest : List ConnEvent) :
    countLoginFrames (ev :: rest) =
      countLoginFrames [ev] + countLoginFrames rest := by
  simp [countLoginFrames, List.countP_cons]
  omega

theorem countSpawns_run_le (conf : config)
    (v : String → String → VerifyResult) :
    ∀ (evs : List ConnEvent) (st : ConnState),
      countSpawns (handleConnRun conf v st evs).2 ≤ countLoginFrames evs := by
  intro evs
  induction evs with
  | nil =>
    intro st
    simp [handleConnRun, countSpawns, countLoginFrames]
  | cons ev rest ih =>
    intro st
    have hstep := countSpawns_step_le conf v st ev
    have hl := countLoginFrames_cons ev rest
    rcases hs : handleConnStep conf v st ev with ⟨st2, effs, out⟩
    rw [hs] at hstep
    dsimp only at hstep
    cases out with
    | term =>
      simp only [handleConnRun, hs]
      have : countSpawns effs ≤ countLoginFrames [ev] := hstep
      omega
    | cont =>
      simp only [handleConnRun, hs]
      have h2 := ih st2
      have h3 := countSpawns_append effs (handleConnRun conf v st2 rest).2
      omega

theorem countSpawns_step_omitted (conf : config)
    (v : String → String → VerifyResult) (st : ConnState) (ev : ConnEvent)
    (h : loginOmitted conf ev = true) :
    countSpawns (handleConnStep conf v st ev).effects = 0 := by
  cases ev with
  | readErr isOp isReset =>
    cases isOp <;> cases isReset <;>
      simp [handleConnStep, countSpawns, List.countP_cons,
        Effect.isSpawnHeartbeat]
  | frame raw parsed randVal =>
    by_cases hraw : raw = ""
    · simp [handleConnStep, hraw, countSpawns]
    · cases parsed with
      | none => simp [handleConnStep, hraw, countSpawns]
      | some req =>
        by_cases hm : req.method = "login"
        · have hrc : requireCallStatus conf (committedAgent req randVal) =
              false := by
            simp [loginOmitted, hraw, hm] at h
            exact h
          have hstep : handleConnStep conf v st
              (ConnEvent.frame raw (some req) randVal) =
              loginStep conf v st raw req randVal := by
            simp [handleConnStep, hraw, hm]
          rw [hstep, countSpawns_loginStep, hrc]
          simp
        · by_cases hnl : st.session.hasNotLoggedIn <;>
            simp [handleConnStep, hraw, hm, hnl, countSpawns,
              List.countP_cons, List.countP_append, Effect.isSpawnHeartbeat]

theorem countSpawns_run_omitted (conf : config)
    (v : String → String → VerifyResult) :
    ∀ (evs : List ConnEvent) (st : ConnState),
      evs.all (loginOmitted conf) = true →
      countSpawns (handleConnRun conf v st evs).2 = 0 := by
  intro evs
  induction evs with
  | nil => intro st _; rfl
  | cons ev rest ih =>
    intro st hall
    rw [List.all_cons, Bool.and_eq_true] at hall
    have hstep := countSpawns_step_omitted conf v st ev hall.1
    rcases hs : handleConnStep conf v st ev with ⟨st2, effs, out⟩
    rw [hs] at hstep
    dsimp only at hstep
    cases out with
    | term =>
      simp only [handleConnRun, hs]
      exact hstep
    | cont =>
      simp only [handleConnRun, hs]
      rw [countSpawns_append, hstep, ih st2 hall.2]

theorem callStatusRun_stop_at_done :
    ∀ (evs1 evs2 : List HeartbeatEvent),
      callStatusPerIntervalRun (evs1 ++ HeartbeatEvent.ctxDone :: evs2) =
        callStatusPerIntervalRun (evs1 ++ [HeartbeatEvent.ctxDone]) := by
  intro evs1
  induction evs1 with
  | nil => intro evs2; rfl
  | cons e rest ih =>
    intro evs2
    cases e with
    | tick => simp [List.cons_append, callStatusPerIntervalRun, ih]
    | ctxDone => rfl

theorem callStatusRun_replicate :
    ∀ hevs : List HeartbeatEvent,
      callStatusPerIntervalRun hevs =
        List.replicate (hevs.takeWhile HeartbeatEvent.isTick).length
          statusReq := by
  intro hevs
  induction hevs with
  | nil => rfl
  | cons e rest ih =>
    cases e with
    | tick =>
      simp [callStatusPerIntervalRun, List.takeWhile_cons,
        HeartbeatEvent.isTick, ih, List.replicate_succ]
    | ctxDone =>
      simp [callStatusPerIntervalRun, List.takeWhile_cons,
        HeartbeatEvent.isTick]

/-- C4 (counterexample): a connection that handles two login frames spawns
two heartbeat tasks; since a spawned task only stops at cancellation of
the shared scope (and none happened here), two heartbeat tasks are active
at the same time, contradicting the at-most-one claim. -/
theorem C4_counterexample :
    countSpawns (handleConnRun exConf exVerifyOk (initialConnState exConf)
      [loginEvt "alice", loginEvt "alice"]).2 = 2 := rfl

/-- C4 (amended): the connection spawns at most one heartbeat task per
handled login frame (so a connection handling n login frames may have up
to n heartbeat tasks active simultaneously), and any heartbeat task
terminates no later than the cancellation of the connection's scope: after
the ctx.Done select outcome no further status request is sent. -/
theorem C4_heartbeat_spawn_bound :
    (∀ (conf : config) (v : String → String → VerifyResult)
        (st : ConnState) (evs : List ConnEvent),
        countSpawns (handleConnRun conf v st evs).2 ≤
          countLoginFrames evs) ∧
    (∀ (evs1 evs2 : List HeartbeatEvent),
        callStatusPerIntervalRun (evs1 ++ HeartbeatEvent.ctxDone :: evs2) =
          callStatusPerIntervalRun
            (evs1 ++ [HeartbeatEvent.ctxDone])) := by
  constructor
  · intro conf v st evs
    exact countSpawns_run_le conf v evs st
  · exact callStatusRun_stop_at_done

/-- C7 (confirmed): when every login frame handled on the connection
commits an agent containing a configured omit substring, no heartbeat task
is ever spawned (so no heartbeat status request is ever sent upstream for
the connection); a login frame whose committed agent contains no omit
substring does spawn the heartbeat task; the heartbeat task sends the
zero-parameter "status" request on every tick of its fixed 10-second
interval until the cancellation outcome, and nothing afterwards. -/
theorem C7_heartbeat_suppression_and_interval (conf : config)
    (v : String → String → VerifyResult) (st : ConnState) :
    (∀ evs : List ConnEvent, evs.all (loginOmitted conf) = true →
        countSpawns (handleConnRun conf v st evs).2 = 0) ∧
    (∀ (raw : String) (req : stratumRequest) (randVal : Nat), raw ≠ "" →
        req.method = "login" →
        (conf.stratumServer.omitAgentStatus.any fun omitSubstr =>
            goContains (committedAgent req randVal) omitSubstr) = false →
        Effect.spawnHeartbeat ∈
          (handleConnStep conf v st
            (ConnEvent.frame raw (some req) randVal)).effects) ∧
    (∀ hevs : List HeartbeatEvent,
        callStatusPerIntervalRun hevs =
          List.replicate (hevs.takeWhile HeartbeatEvent.isTick).length
            statusReq) ∧
    heartbeatIntervalSeconds = 10 ∧ statusReq.method = "status" ∧
    statusReq.params = [] := by
  refine ⟨?_, ?_, callStatusRun_replicate, rfl, rfl, rfl⟩
  · intro evs hall
    exact countSpawns_run_omitted conf v evs st hall
  · intro raw req randVal hraw hm homit
    have hrc : requireCallStatus conf (committedAgent req randVal) = true := by
      simp [requireCallStatus, homit]
    have hstep : handleConnStep conf v st
        (ConnEvent.frame raw (some req) randVal) =
        loginStep conf v st raw req randVal := by
      simp [handleConnStep, hraw, hm]
    rw [hstep]
    simp [loginStep, heartbeatEffects, hrc]

def omitConf : config := ⟨⟨["NiceHash"]⟩, ⟨1⟩⟩

def omitLoginReq : stratumRequest :=
  ⟨"1", "2.0", "login",
   [("login", JVal.str "alice"), ("pass", JVal.str "pw"),
    ("agent", JVal.str "NiceHashMiner/2.0")]⟩

def omitLoginEvt : ConnEvent :=
  ConnEvent.frame (loginRaw "alice") (some omitLoginReq) 0

set_option maxRecDepth 16000 in
theorem C7_witness :
    countSpawns (handleConnRun omitConf exVerifyOk
      (initialConnState omitConf) [omitLoginEvt]).2 = 0 ∧
    Effect.spawnHeartbeat ∈
      (handleConnStep exConf exVerifyOk (initialConnState exConf)
        (loginEvt "dave")).effects :=
  ⟨(C7_heartbeat_suppression_and_interval omitConf exVerifyOk
      (initialConnState omitConf)).1 [omitLoginEvt] rfl,
   (C7_heartbeat_suppression_and_interval exConf exVerifyOk
      (initialConnState exConf)).2.1 (loginRaw "dave") (loginReq "dave") 0
      (by decide) rfl rfl⟩
